import Mathlib

/-!
Verification of the interactive command shell in `cli.py` of the
abb-decision-tree-python repository.

The Python code is shallowly embedded: Python strings handled byte/char-wise
(the `getch` decoder and the line editor) are modelled as `List Char`, other
strings as `String`, Python lists as Lean lists, the alias dictionary as an
association list with dict update semantics, and raising as `Except`/`Option`
results.  Each definition mirrors one Python function of `src/cli.py`.
-/

namespace Cli

/-- Word accumulator for `pySplit`: walks the characters, collecting the
current word in `acc` (reversed) and emitting it at each whitespace run. -/
def pyTokensAux : List Char → List Char → List (List Char)
  | [], acc => if acc = [] then [] else [acc.reverse]
  | c :: rest, acc =>
    if c.isWhitespace then
      if acc = [] then pyTokensAux rest []
      else acc.reverse :: pyTokensAux rest []
    else pyTokensAux rest (c :: acc)

/-- Model of Python `str.split()` with no argument: split on whitespace runs
and drop empty pieces.  Used by the run loop to tokenize a submitted line
(`args = current_cmd.split()`, cli.py line 358). -/
def pySplit (s : String) : List String :=
  (pyTokensAux s.data []).map (fun cs => String.mk cs)

/-- Digit-string value for `pyParseInt?`; `none` when the list is empty or
holds a non-digit. -/
def digitsVal? (cs : List Char) : Option Nat :=
  match cs with
  | [] => none
  | _ =>
    cs.foldl
      (fun acc c =>
        acc.bind (fun n => if c.isDigit then some (n * 10 + (c.toNat - 48)) else none))
      (some 0)

/-- Model of Python `int(s)` on a whitespace-free token: optional sign
followed by at least one digit; `none` models `ValueError`
(cli.py line 123 `count = int(argv[1])`). -/
def pyParseInt? (s : String) : Option Int :=
  match s.data with
  | [] => none
  | '-' :: rest => (digitsVal? rest).map (fun n => -(n : Int))
  | '+' :: rest => (digitsVal? rest).map (fun n => (n : Int))
  | cs => (digitsVal? cs).map (fun n => (n : Int))

/-- Clamp one slice endpoint the way CPython does for `l[a:b]`. -/
def pySliceIdx (len : Nat) (i : Int) : Nat :=
  if i < 0 then (i + len).toNat else min len i.toNat

/-- Model of Python slicing `l[a:b]` (step 1), as used by
`default_cmd_history` (cli.py line 131, slice `[-count-1:-1]`). -/
def pySlice {α : Type} (l : List α) (a b : Int) : List α :=
  (l.take (pySliceIdx l.length b)).drop (pySliceIdx l.length a)

/-! ## History management inside `CLI.run` (cli.py lines 300-361)

The run loop keeps `self.history : list[str]`.  Each prompt cycle:
pop index 0 when `len(history) >= history_limit`, append an empty draft
slot, collect a line, write it into the last slot, and pop the slot again
when the line tokenizes to an empty `args` list. -/

/-- Start of a prompt cycle (cli.py lines 305-309): evict index 0 when the
history has reached `history_limit`, then append the empty draft slot.
The Python `pop(0)` runs on a non-empty list whenever `history_limit ≥ 1`,
which every theorem below assumes. -/
def begin_line (history_limit : Nat) (history : List String) : List String :=
  (if history_limit ≤ history.length then history.drop 1 else history) ++ [""]

/-- End of a prompt cycle (cli.py lines 357-361): write `current_cmd` into
the last slot, tokenize it, and pop the slot when `args` is empty. -/
def commit_line (history : List String) (current_cmd : String) : List String :=
  let h := history.set (history.length - 1) current_cmd
  if pySplit current_cmd = [] then h.dropLast else h

/-- One full prompt cycle of the run loop on the history list, for a
collection round that ended with `current_cmd` as the line. -/
def prompt_cycle (history_limit : Nat) (history : List String)
    (current_cmd : String) : List String :=
  commit_line (begin_line history_limit history) current_cmd

/-- The history after a sequence of prompt cycles submitting `cmds` in
order. -/
def run_cycles (history_limit : Nat) (history : List String)
    (cmds : List String) : List String :=
  cmds.foldl (prompt_cycle history_limit) history

/-- A prompt cycle ended by Interrupt (Ctrl-C, cli.py lines 321-324):
`current_cmd` is reset to `""` and the shared commit code then pops the
draft slot. -/
def interrupt_cycle (history_limit : Nat) (history : List String) : List String :=
  prompt_cycle history_limit history ""

/-! ## Escape-sequence decoding: `_Getch` (cli.py lines 18-59)

`_Getch.__call__` reads single characters from the terminal and walks the
`self.escape` tree of escape sequences.  A tree value is either a nested
dict (a `node`), `None` (return the accumulated characters), or a string
(return that string).  The byte source is modelled as a `List Char`; the
decoder returns the decoded event string together with the unconsumed rest
of the source (`none` when the source runs dry mid-read, which in the real
program is a blocking read). -/

inductive Esc where
  | leaf (r : Option (List Char))
  | node (children : List (Char × Esc))

/-- Dict lookup `escape[ch[-1]]` fused with the `ch[-1] in escape` test. -/
def escLookup : List (Char × Esc) → Char → Option Esc
  | [], _ => none
  | (k, v) :: rest, c => if k = c then some v else escLookup rest c

/-- The `self.escape` tree built in `_Getch.__init__` (cli.py lines 25-36). -/
def escape_table : List (Char × Esc) :=
  [('\x1b', Esc.node
    [('[', Esc.node
      [('A', Esc.leaf none), ('B', Esc.leaf none), ('C', Esc.leaf none),
       ('D', Esc.leaf none), ('P', Esc.leaf none)]),
     ('\x1b', Esc.leaf (some ['\x1b']))])]

/-- Loop exit of `_Getch.__call__` (cli.py lines 54-59): on a failed escape
sequence only the most recently consumed character is returned. -/
def getch_exit (ch : List Char) : List Char :=
  if 1 < ch.length then [ch.getLastD ' '] else ch

/-- The `while ch[-1] in escape` loop of `_Getch.__call__` (cli.py lines
43-52), with `ch` the characters consumed so far (never empty). -/
def getch_go : List (Char × Esc) → List Char → List Char → Option (List Char × List Char)
  | children, ch, [] =>
    match escLookup children (ch.getLastD ' ') with
    | none => some (getch_exit ch, [])
    | some (Esc.leaf none) => some (ch, [])
    | some (Esc.leaf (some s)) => some (s, [])
    | some (Esc.node _) => none
  | children, ch, c :: rest =>
    match escLookup children (ch.getLastD ' ') with
    | none => some (getch_exit ch, c :: rest)
    | some (Esc.leaf none) => some (ch, c :: rest)
    | some (Esc.leaf (some s)) => some (s, c :: rest)
    | some (Esc.node cs) => getch_go cs (ch ++ [c]) rest

/-- `_Getch.__call__` on a character source: read one character, then run
the escape-tree loop. -/
def getch : List Char → Option (List Char × List Char)
  | [] => none
  | c :: rest => getch_go escape_table [c] rest

/-! ## Line editing: `CLI.input` (cli.py lines 241-289)

Each value returned by `getch` is a string; `CLI.input` compares it against
stop characters, invisible characters, and the special editing sequences,
otherwise inserting it at the cursor.  Strings are modelled as `List Char`;
the event source is the list of `getch` results. -/

def default_stop_chars : List (List Char) :=
  [['\x03'], ['\x04'], ['\n'], ['\r']]

def default_invisible_chars : List (List Char) :=
  [['\x1b', '[', 'A'], ['\x1b', '[', 'B']]

/-- The editing branch of the `CLI.input` loop body (cli.py lines 267-287):
applied to a character `ch` that is neither a stop nor an invisible
character. -/
def input_edit (out : List Char) (index : Nat) (ch : List Char) : List Char × Nat :=
  if ch = ['\x1b', '[', 'C'] then
    (out, if index < out.length then index + 1 else index)
  else if ch = ['\x1b', '[', 'D'] then
    (out, if 0 < index then index - 1 else index)
  else if ch = ['\x7f'] ∨ ch = ['\x08'] then
    if 0 < index then (out.take (index - 1) ++ out.drop index, index - 1)
    else (out, index)
  else if ch = ['\x1b', '[', 'P'] then
    if index < out.length then (out.take index ++ out.drop (index + 1), index)
    else (out, index)
  else (out.take index ++ ch ++ out.drop index, index + 1)

/-- The `CLI.input` loop (cli.py lines 254-289) over a list of `getch`
results: returns the final buffer, the final cursor, and the stop character
(`none` when the events ran out before any stop character arrived). -/
def input_loop (stops invis : List (List Char)) :
    List Char → Nat → List (List Char) → List Char × Nat × Option (List Char)
  | out, index, [] => (out, index, none)
  | out, index, ch :: rest =>
    if ch ∈ stops then (out, index, some ch)
    else if ch ∈ invis then input_loop stops invis out index rest
    else
      let p := input_edit out index ch
      input_loop stops invis p.1 p.2 rest

/-- Logical key events of spec §4.2 that do not terminate a collection
round (arrow up/down are routed to history, not the editor, and are
excluded here as in claim C3). -/
inductive KeyEvent where
  | char (c : Char)
  | arrowLeft
  | arrowRight
  | backspace
  | delete
  deriving DecidableEq

/-- The character string `getch` hands to `CLI.input` for each event. -/
def eventChs : KeyEvent → List Char
  | KeyEvent.char c => [c]
  | KeyEvent.arrowLeft => ['\x1b', '[', 'D']
  | KeyEvent.arrowRight => ['\x1b', '[', 'C']
  | KeyEvent.backspace => ['\x7f']
  | KeyEvent.delete => ['\x1b', '[', 'P']

/-- A character that the editor treats as an ordinary insertion: not a stop
character and not one of the single-character editing keys. -/
def plainChar (c : Char) : Bool :=
  c ≠ '\x03' && c ≠ '\x04' && c ≠ '\n' && c ≠ '\r' && c ≠ '\x7f' && c ≠ '\x08'

/-- Event-level side condition for claim C3. -/
def eventPlain : KeyEvent → Bool
  | KeyEvent.char c => plainChar c
  | _ => true

/-- Modelled from the spec, §4.2 Line Editor: the per-event pure
transformation of `(text, cursor)` — `Char(c)` inserts at the cursor and
advances it, the arrows clamp the cursor to `[0, len(text)]`, `Backspace`
deletes before the cursor when `cursor > 0`, `Delete` removes at the cursor
when `cursor < len(text)`.  This is the refinement target that claim C3
compares with the source-derived `input_edit`/`input_loop`. -/
def spec_editor_step : List Char × Nat → KeyEvent → List Char × Nat
  | (text, cursor), KeyEvent.char c => (text.take cursor ++ [c] ++ text.drop cursor, cursor + 1)
  | (text, cursor), KeyEvent.arrowLeft => (text, cursor - 1)
  | (text, cursor), KeyEvent.arrowRight => (text, min text.length (cursor + 1))
  | (text, cursor), KeyEvent.backspace =>
    if 0 < cursor then (text.take (cursor - 1) ++ text.drop cursor, cursor - 1)
    else (text, cursor)
  | (text, cursor), KeyEvent.delete =>
    if cursor < text.length then (text.take cursor ++ text.drop (cursor + 1), cursor)
    else (text, cursor)

/-! ## The COLLECT loop dispatch (cli.py lines 311-351)

Each round of the inner `while` loop of `CLI.run` calls `CLI.input` and
receives `(current_cmd, stop)`.  The branch on `stop` either breaks out of
the loop (towards commit/dispatch or force-quit) or continues collecting. -/

inductive StepRes where
  | breakLoop (current_cmd : String) (force_quit : Bool)
  | continueLoop (history : List String) (i : Nat)
  deriving DecidableEq

/-- The branch of `CLI.run`'s inner loop on the stop character (cli.py
lines 321-351), given the current history, the navigation index `i`, the
draft slot index `last`, and the collected line.  Note the `'\x04'` branch:
when `current_cmd` is non-empty nothing happens and the loop simply
continues (no `else` in the source), re-seeding the editor from
`history[i]`. -/
def collect_step (history : List String) (i last : Nat)
    (current_cmd stop : String) : StepRes :=
  if stop = "\x03" then StepRes.breakLoop "" false
  else if stop = "\x04" then
    if current_cmd = "" then StepRes.breakLoop current_cmd true
    else StepRes.continueLoop history i
  else if stop = "\x1b[A" then
    if 0 < i then
      StepRes.continueLoop
        (if i = last then history.set last current_cmd else history) (i - 1)
    else StepRes.continueLoop history i
  else if stop = "\x1b[B" then
    if i < last then StepRes.continueLoop history (i + 1)
    else StepRes.continueLoop history i
  else StepRes.breakLoop current_cmd false

/-! ## Command registry (cli.py lines 7-15, 138-222)

`Command` objects are compared by Python object identity in
`register_command`; the `oid` field models that identity, and `function`
is an identity tag for the handler (the built-in handler bodies are
modelled separately below).  Tombstoned entries of `CLI.commands` are
`none`.  `CLI._command_maps` starts as the empty list `[]` and is replaced
by an alias→index dict only inside `CLI.run`; an association list with
dict update semantics models both states faithfully (membership in the
initial empty list and in the dict coincide with membership in `[]` and in
the dict keys). -/

inductive PyExc where
  | keyError (msg : String)
  | indexError (msg : String)
  | attributeError
  | valueError
  deriving DecidableEq

structure Command where
  oid : Nat
  function : Nat
  aliases : List String
  usage : String := ""
  description : String := ""
  deriving DecidableEq

structure CLIState where
  commands : List (Option Command)
  commandMaps : List (String × Nat)
  historyLimit : Nat
  history : List String
  caseInsensitive : Bool
  deriving DecidableEq

/-- `self.messages["command_already_registered"]`. -/
def command_already_registered_msg : String := "Command was already registered\n"

/-- `self.messages["command_overlapping_alias"]`, formatted. -/
def command_overlapping_alias_msg (a : String) : String :=
  "Another command is already using the alias \x27" ++ a ++ "\x27\n"

/-- `self.messages["command_not_found"]`, formatted. -/
def command_not_found_msg (c : String) : String :=
  "No such command \x27" ++ c ++ "\x27\n"

/-- `self.messages["id_out_of_range"]`. -/
def id_out_of_range_msg : String := "The specified ID is out of range"

/-- CPython's own message for an out-of-range list item assignment. -/
def list_assign_msg : String := "list assignment index out of range"

/-- `self.messages["history_negative_count"]`. -/
def history_negative_count_msg : String := "Cannot print a zero or less history entries\n"

/-- `self.messages["history_invalid_count"]`. -/
def history_invalid_count_msg : String := "Non-integer count of entries supplied\n"

/-- Python `key in d` on the alias dict (or the initial empty list). -/
def dictHasKey (d : List (String × Nat)) (k : String) : Bool :=
  d.any (fun p => p.1 == k)

/-- Python `d[key]` lookup on the alias dict. -/
def dictGet? (d : List (String × Nat)) (k : String) : Option Nat :=
  (d.find? (fun p => p.1 == k)).map (fun p => p.2)

/-- Python `d[key] = v` on the alias dict. -/
def dictInsert (d : List (String × Nat)) (k : String) (v : Nat) : List (String × Nat) :=
  (d.filter (fun p => p.1 ≠ k)) ++ [(k, v)]

/-- `CLI.register_command` (cli.py lines 189-201): duplicate-object check
against `self.commands`, then each alias is tested against
`self._command_maps` — the map generated at the last `CLI.run` start, NOT
the current command list — and the command is appended, returning
`len(self.commands) - 1`. -/
def register_command (st : CLIState) (command : Command) :
    Except PyExc (CLIState × Nat) :=
  if st.commands.contains (some command) then
    Except.error (PyExc.keyError command_already_registered_msg)
  else
    match command.aliases.find? (fun a => dictHasKey st.commandMaps a) with
    | some a => Except.error (PyExc.keyError (command_overlapping_alias_msg a))
    | none =>
      Except.ok ({ st with commands := st.commands ++ [some command] },
        st.commands.length)

/-- `id` clamped once by the length, as CPython does for `l[i] = v`. -/
def pyItemIdx (len : Nat) (i : Int) : Int :=
  if i < 0 then i + len else i

/-- Model of CPython list item assignment `l[i] = v`: a negative index is
offset by the length once; an index still out of range is an `IndexError`
(`none`).  Used by `unregister_command` (cli.py line 207). -/
def pySetItem {α : Type} (l : List α) (i : Int) (v : α) : Option (List α) :=
  if 0 ≤ pyItemIdx l.length i ∧ pyItemIdx l.length i < (l.length : Int) then
    some (l.set (pyItemIdx l.length i).toNat v)
  else none

/-- `CLI.unregister_command` (cli.py lines 203-209): when `id <
len(self.commands)` the entry is tombstoned by Python item assignment
(which itself raises on an index below `-len`), otherwise the registry's
own out-of-range `IndexError` is raised. -/
def unregister_command (st : CLIState) (id : Int) : Except PyExc CLIState :=
  if id < (st.commands.length : Int) then
    match pySetItem st.commands id none with
    | some cmds => Except.ok { st with commands := cmds }
    | none => Except.error (PyExc.indexError list_assign_msg)
  else Except.error (PyExc.indexError id_out_of_range_msg)

/-- `CLI._generate_command_maps` (cli.py lines 211-216), called only from
`CLI.run`: rebuild the alias dict from the non-tombstoned commands. -/
def generate_command_maps (cmds : List (Option Command)) : List (String × Nat) :=
  cmds.enum.foldl
    (fun d p =>
      match p.2 with
      | none => d
      | some cmd => cmd.aliases.foldl (fun d2 a => dictInsert d2 a p.1) d)
    []

/-- `CLI.get_command` (cli.py lines 218-222): the alias dict can point at a
tombstoned slot, in which case Python returns `None` here. -/
def get_command (st : CLIState) (a : String) : Except PyExc (Option Command) :=
  match dictGet? st.commandMaps a with
  | some i => Except.ok (st.commands.getD i none)
  | none => Except.error (PyExc.keyError (command_not_found_msg a))

/-- The `help` built-in command record (cli.py lines 156-161). -/
def builtin_help : Command :=
  { oid := 0, function := 0, aliases := ["h", "help"], usage := "[command]",
    description := "Print this help message" }

/-- The `quit` built-in command record (cli.py lines 162-166). -/
def builtin_quit : Command :=
  { oid := 1, function := 1, aliases := ["q", "quit"],
    description := "Quit the program" }

/-- The `history` built-in command record (cli.py lines 167-172). -/
def builtin_history : Command :=
  { oid := 2, function := 2, aliases := ["history"], usage := "[count=15]",
    description := "Print the command history" }

/-- `CLI.__init__` (cli.py lines 138-187): empty command list and empty
`_command_maps`, then the three built-ins are registered through
`register_command`. -/
def initCLI (history_limit : Nat) : Except PyExc CLIState := do
  let st0 : CLIState :=
    { commands := [], commandMaps := [], historyLimit := history_limit,
      history := [], caseInsensitive := true }
  let p1 ← register_command st0 builtin_help
  let p2 ← register_command p1.1 builtin_quit
  let p3 ← register_command p2.1 builtin_history
  Except.ok p3.1

/-! ## Built-in command handlers (cli.py lines 96-132)

A handler's observable behavior: the lines printed to stdout, the lines
written to stderr, and either a returned status code or a raised
exception. -/

/-- Decidable equality for `Except` results, needed to `decide` concrete
handler outputs. -/
def exceptDecEq {ε α : Type} [DecidableEq ε] [DecidableEq α] :
    (x y : Except ε α) → Decidable (x = y)
  | Except.ok a, Except.ok b =>
    if h : a = b then Decidable.isTrue (by rw [h])
    else Decidable.isFalse (by intro hh; injection hh; contradiction)
  | Except.ok _, Except.error _ => Decidable.isFalse (by intro hh; injection hh)
  | Except.error _, Except.ok _ => Decidable.isFalse (by intro hh; injection hh)
  | Except.error e, Except.error f =>
    if h : e = f then Decidable.isTrue (by rw [h])
    else Decidable.isFalse (by intro hh; injection hh; contradiction)

instance {ε α : Type} [DecidableEq ε] [DecidableEq α] : DecidableEq (Except ε α) :=
  exceptDecEq

structure CmdOut where
  out : List String
  err : List String
  status : Except PyExc Int
  deriving DecidableEq

/-- `print_fmt` inside `default_cmd_help` (cli.py lines 97-103), with the
default `help_format = "{aliases} | {desc} | {name} {usage}"` already
applied. -/
def print_fmt (cmd : Command) : String :=
  String.intercalate "; " cmd.aliases ++ " | " ++ cmd.description ++ " | " ++
    cmd.aliases.headD "" ++ " " ++ cmd.usage

/-- The `for cmd in inter.commands: print_fmt(cmd)` loop of
`default_cmd_help` (cli.py lines 106-107): the lines printed before the
loop either finishes (`false`) or hits a tombstoned `None` entry and dies
with an `AttributeError` (`true`). -/
def fmt_all : List (Option Command) → List String × Bool
  | [] => ([], false)
  | none :: _ => ([], true)
  | some c :: rest =>
    let p := fmt_all rest
    (print_fmt c :: p.1, p.2)

/-- `default_cmd_help` (cli.py lines 96-114).  Only `KeyError` is caught
around `get_command`; a `None` from a stale alias map would escape as an
`AttributeError`. -/
def default_cmd_help (inter : CLIState) (argv : List String) : CmdOut :=
  if argv.length < 2 then
    let p := fmt_all inter.commands
    if p.2 then { out := p.1, err := [], status := Except.error PyExc.attributeError }
    else { out := p.1, err := [], status := Except.ok 0 }
  else
    match get_command inter (argv.getD 1 "") with
    | Except.ok (some cmd) => { out := [print_fmt cmd], err := [], status := Except.ok 0 }
    | Except.ok none => { out := [], err := [], status := Except.error PyExc.attributeError }
    | Except.error _ =>
      { out := [], err := [command_not_found_msg (argv.getD 1 "")], status := Except.ok 1 }

/-- Python `f"{n:3d}"`: decimal, right-aligned to width 3 with spaces. -/
def fmt3d (n : Nat) : String :=
  let s := toString n
  if s.length < 3 then String.mk (List.replicate (3 - s.length) ' ') ++ s else s

/-- One formatted history line `f"{k+1:3d}  {v}"` (cli.py line 131). -/
def history_line (k : Nat) (v : String) : String :=
  fmt3d (k + 1) ++ "  " ++ v

/-- The full formatted `enumerate(inter.history)` list (cli.py line 131),
before slicing. -/
def history_lines (history : List String) : List String :=
  history.enum.map (fun p => history_line p.1 p.2)

/-- The single string printed by `default_cmd_history` (cli.py line 131):
`'\n'.join(fmt_list[-count-1:-1])`. -/
def history_joined (history : List String) (count : Int) : String :=
  String.intercalate "\n" (pySlice (history_lines history) (-count - 1) (-1))

/-- The `try: count = int(argv[1]) ...` branch of `default_cmd_history`
(cli.py lines 121-132), after the parse attempt: a `ValueError` (`none`) or
a parsed count, followed by the shared print. -/
def history_count_branch (inter : CLIState) : Option Int → CmdOut
  | some count =>
    if count < 1 then
      { out := [], err := [history_negative_count_msg], status := Except.ok 1 }
    else
      { out := [history_joined inter.history count], err := [], status := Except.ok 0 }
  | none => { out := [], err := [history_invalid_count_msg], status := Except.ok 1 }

/-- `default_cmd_history` (cli.py lines 119-132). -/
def default_cmd_history (inter : CLIState) (argv : List String) : CmdOut :=
  if 1 < argv.length then
    history_count_branch inter (pyParseInt? (argv.getD 1 ""))
  else { out := [history_joined inter.history 15], err := [], status := Except.ok 0 }

/-! ## Concrete states used by witnesses and counterexamples -/

/-- A shell state with the given history and no registered commands, as the
`history` handler sees it mid-dispatch. -/
def mkState (history : List String) : CLIState :=
  { commands := [], commandMaps := [], historyLimit := 1000, history := history,
    caseInsensitive := true }

/-- The command list right after construction: the three built-ins. -/
def threeCmds : CLIState :=
  { commands := [some builtin_help, some builtin_quit, some builtin_history],
    commandMaps := [], historyLimit := 1000, history := [], caseInsensitive := true }

/-- A clean one-command registry for the help witness. -/
def helpSt : CLIState :=
  { commands := [some builtin_help], commandMaps := [], historyLimit := 1000,
    history := [], caseInsensitive := true }

/-! ### Helper lemmas about one prompt cycle -/

theorem set_concat {α : Type} (l : List α) (e v : α) :
    (l ++ [e]).set l.length v = l ++ [v] := by
  induction l with
  | nil => rfl
  | cons x xs ih => simp [List.set, ih]

theorem commit_line_concat (history : List String) (c : String) :
    commit_line (history ++ [""]) c =
      if pySplit c = [] then history else history ++ [c] := by
  unfold commit_line
  have hlen : (history ++ [""]).length - 1 = history.length := by
    simp
  rw [hlen, set_concat]
  by_cases h : pySplit c = []
  · simp [h, List.dropLast_concat]
  · simp [h]

theorem prompt_cycle_eq (H : Nat) (history : List String) (c : String)
    (hlen : history.length ≤ H) :
    prompt_cycle H history c =
      (if history.length < H then history else history.drop 1) ++
        (if pySplit c = [] then [] else [c]) := by
  unfold prompt_cycle begin_line
  by_cases hful : H ≤ history.length
  · have : ¬ history.length < H := by omega
    rw [if_pos hful, if_neg this, commit_line_concat]
    by_cases h : pySplit c = [] <;> simp [h]
  · have : history.length < H := by omega
    rw [if_neg hful, if_pos this, commit_line_concat]
    by_cases h : pySplit c = [] <;> simp [h]

theorem run_cycles_eq (H : Nat) (hH : 1 ≤ H) (cmds : List String)
    (hc : ∀ c ∈ cmds, pySplit c ≠ []) (history : List String)
    (hlen : history.length ≤ H) :
    run_cycles H history cmds =
      (history ++ cmds).drop (history.length + cmds.length - H) := by
  induction cmds generalizing history with
  | nil =>
    have : history.length - H = 0 := by omega
    simp [run_cycles, this]
  | cons c rest ih =>
    have hcr : ∀ x ∈ rest, pySplit x ≠ [] := fun x hx => hc x (List.mem_cons_of_mem _ hx)
    have hcc : pySplit c ≠ [] := hc c (List.mem_cons_self _ _)
    have hstep : run_cycles H history (c :: rest) =
        run_cycles H (prompt_cycle H history c) rest := rfl
    rw [hstep]
    by_cases hful : history.length < H
    · have hpc : prompt_cycle H history c = history ++ [c] := by
        rw [prompt_cycle_eq H history c hlen, if_pos hful, if_neg hcc]
      rw [hpc, ih hcr (history ++ [c]) (by simp; omega)]
      have hlist : (history ++ [c]) ++ rest = history ++ c :: rest := by simp
      have harith : (history ++ [c]).length + rest.length - H =
          history.length + (c :: rest).length - H := by simp; omega
      rw [hlist, harith]
    · have heq : history.length = H := by omega
      have hne : history ≠ [] := by
        intro h
        rw [h] at heq
        simp at heq
        omega
      have hpc : prompt_cycle H history c = history.drop 1 ++ [c] := by
        rw [prompt_cycle_eq H history c hlen, if_neg hful, if_neg hcc]
      have hlen1 : (history.drop 1 ++ [c]).length ≤ H := by
        simp [List.length_drop]
        omega
      rw [hpc, ih hcr (history.drop 1 ++ [c]) hlen1]
      have hlist : (history.drop 1 ++ [c]) ++ rest = history.drop 1 ++ c :: rest := by
        simp
      rw [hlist]
      have hdp : history.drop 1 ++ c :: rest = (history ++ c :: rest).drop 1 := by
        rw [List.drop_append_of_le_length (by omega)]
      rw [hdp, List.drop_drop]
      congr 1
      simp [List.length_drop]
      omega

/-! ### Claim C5: history capacity and eviction -/

/-- Claim C5 counterexample: with capacity `H = 1`, committing the `H + 1 = 2`
non-empty entries `"a"` and `" "` leaves the history at length `0`, not
`H = 1` as the claim states — the run loop discards any entry whose
whitespace tokenization is empty, not only the empty string. -/
theorem history_capacity_counterexample :
    run_cycles 1 [] ["a", " "] = [] ∧ (" " : String) ≠ "" := by decide

/-- Claim C5 (amended): committing `H + 1` entries, each of which tokenizes
to a non-empty argv (contains a non-whitespace character), into an initially
empty history of capacity `H ≥ 1` leaves exactly `H` entries: the original
first entry is evicted and every surviving entry shifts down one index,
preserving relative order (the result is exactly the input sequence without
its first element). -/
theorem history_capacity_eviction (H : Nat) (cmds : List String) (hH : 1 ≤ H)
    (hlen : cmds.length = H + 1) (hc : ∀ c ∈ cmds, pySplit c ≠ []) :
    run_cycles H [] cmds = cmds.drop 1 ∧ (run_cycles H [] cmds).length = H := by
  have h := run_cycles_eq H hH cmds hc [] (by simp)
  simp only [List.nil_append, List.length_nil, Nat.zero_add] at h
  rw [hlen] at h
  have h1 : H + 1 - H = 1 := by omega
  rw [h1] at h
  refine ⟨h, ?_⟩
  rw [h, List.length_drop, hlen]
  omega

/-- Witness for `history_capacity_eviction` at `H = 1`, `cmds = ["a", "b"]`. -/
theorem history_capacity_eviction_witness :
    run_cycles 1 [] ["a", "b"] = ["b"] ∧ (run_cycles 1 [] ["a", "b"]).length = 1 :=
  history_capacity_eviction 1 ["a", "b"] (by decide) (by decide) (by decide)

/-! ### Claim C6: Interrupt discards only the draft -/

/-- Claim C6 counterexample: with capacity `H = 1` and a full history
`["a"]`, an interrupted prompt cycle leaves the history empty — `begin_line`
already evicted the oldest entry when the line began, and the cancel does
not restore it, so the committed history is not "exactly as it was before
begin_line". -/
theorem interrupt_at_capacity_counterexample :
    interrupt_cycle 1 ["a"] = [] ∧ (["a"] : List String) ≠ [] := by decide

/-- Claim C6 (amended): an Interrupt (Ctrl-C) during collection discards the
draft slot; the committed history is exactly as before `begin_line` whenever
the history was below its capacity limit.  When the history was already at
(or beyond) the limit, `begin_line` itself evicted the oldest entry before
the interrupt and the cancel does not restore it: the result is the old
history without its first entry. -/
theorem interrupt_history_effect (H : Nat) (history : List String) (_hH : 1 ≤ H) :
    (history.length < H → interrupt_cycle H history = history) ∧
    (H ≤ history.length → interrupt_cycle H history = history.drop 1) := by
  have h0 : pySplit "" = [] := by decide
  unfold interrupt_cycle prompt_cycle begin_line
  constructor
  · intro h
    rw [if_neg (by omega), commit_line_concat, if_pos h0]
  · intro h
    rw [if_pos h, commit_line_concat, if_pos h0]

/-- Witness for `interrupt_history_effect` at `H = 2`, `history = ["a"]`
(below capacity: the history is preserved). -/
theorem interrupt_history_effect_witness :
    interrupt_cycle 2 ["a"] = ["a"] :=
  (interrupt_history_effect 2 ["a"] (by decide)).1 (by decide)

/-! ### Claim C7: commit discards exactly the blank lines -/

/-- Claim C7 counterexample: submitting the non-empty, whitespace-only line
`" "` does not become a history entry — the run loop pops the slot whenever
`current_cmd.split()` is empty, not only when the text is the empty
string. -/
theorem commit_whitespace_counterexample :
    prompt_cycle 1000 [] " " = [] ∧ (" " : String) ≠ "" := by decide

/-- Claim C7 (amended): for a history below capacity, a submitted line is
discarded (the history is left unchanged) iff its whitespace tokenization
`argv` is empty — that is, iff the text contains no non-whitespace character
(empty or whitespace-only); every line with a non-empty `argv` becomes a
permanent history entry, after which the loop proceeds to dispatch and
returns to the prompt. -/
theorem commit_discard_iff_blank (H : Nat) (history : List String) (c : String)
    (hlen : history.length < H) :
    prompt_cycle H history c =
      (if pySplit c = [] then history else history ++ [c]) := by
  rw [prompt_cycle_eq H history c (by omega), if_pos hlen]
  by_cases h : pySplit c = [] <;> simp [h]

/-- Witness for `commit_discard_iff_blank`: the line `" x "` has non-empty
argv and is kept. -/
theorem commit_discard_iff_blank_witness :
    prompt_cycle 1000 [] " x " = [" x "] :=
  (commit_discard_iff_blank 1000 [] " x " (by decide)).trans (by decide)

/-! ### Claim C2: EndOfInput handling in the COLLECT loop -/

/-- Claim C2 counterexample: an EndOfInput (`'\x04'`) received while the
buffer holds `"abc"` does not behave like Submit.  Submit (`'\n'`) breaks
out of the collection loop carrying the line; EndOfInput with a non-empty
buffer falls through the `'\x04'` branch without a `break`, so the loop
just continues collecting and the line is never committed or dispatched. -/
theorem collect_eof_counterexample :
    collect_step [""] 0 0 "abc" "\x04" = StepRes.continueLoop [""] 0 ∧
    collect_step [""] 0 0 "abc" "\n" = StepRes.breakLoop "abc" false ∧
    StepRes.continueLoop [""] 0 ≠ StepRes.breakLoop "abc" false := by decide

/-- Claim C2 (amended): in the COLLECT loop, EndOfInput with an empty
buffer breaks out with `force_quit = true` (ending the whole run loop);
EndOfInput with a non-empty buffer does NOT terminate the round — the
collection loop simply continues (re-seeding the editor from
`history[i]`), so the typed text is neither committed nor dispatched. -/
theorem collect_eof_spec (history : List String) (i last : Nat) (cmd : String) :
    collect_step history i last "" "\x04" = StepRes.breakLoop "" true ∧
    (cmd ≠ "" → collect_step history i last cmd "\x04" = StepRes.continueLoop history i) := by
  constructor
  · unfold collect_step
    rw [if_neg (by decide), if_pos rfl, if_pos rfl]
  · intro h
    unfold collect_step
    rw [if_neg (by decide), if_pos rfl, if_neg h]

/-- Witness for `collect_eof_spec` at a concrete history and line. -/
theorem collect_eof_spec_witness :
    collect_step ["x"] 0 0 "" "\x04" = StepRes.breakLoop "" true ∧
    collect_step ["x"] 0 0 "ab" "\x04" = StepRes.continueLoop ["x"] 0 :=
  ⟨(collect_eof_spec ["x"] 0 0 "ab").1, (collect_eof_spec ["x"] 0 0 "ab").2 (by decide)⟩

/-! ### Claim C4: escape-sequence decoding -/

/-- Claim C4: decoding `ESC [ A` yields exactly one event — the string
`"\x1b[A"`, which is how the program represents ArrowUp — and consumes
exactly 3 characters; decoding the unmapped `ESC [ Z` yields the literal
`'Z'` only (the unresolved prefix is discarded, not re-emitted) and also
consumes exactly 3 characters; any first character other than ESC is
emitted as itself immediately, consuming exactly 1 character. -/
theorem getch_decode_spec (rest : List Char) (c : Char) (hc : c ≠ '\x1b') :
    getch ('\x1b' :: '[' :: 'A' :: rest) = some (['\x1b', '[', 'A'], rest) ∧
    getch ('\x1b' :: '[' :: 'Z' :: rest) = some (['Z'], rest) ∧
    getch (c :: rest) = some ([c], rest) := by
  have hlook : escLookup escape_table c = none := by
    simp [escape_table, escLookup, Ne.symm hc]
  cases rest with
  | nil => exact ⟨rfl, rfl, by simp [getch, getch_go, hlook, getch_exit]⟩
  | cons r rs => exact ⟨rfl, rfl, by simp [getch, getch_go, hlook, getch_exit]⟩

/-- Witness for `getch_decode_spec` with the empty remainder and `c = 'x'`. -/
theorem getch_decode_spec_witness :
    getch ['\x1b', '[', 'A'] = some (['\x1b', '[', 'A'], []) ∧
    getch ['\x1b', '[', 'Z'] = some (['Z'], []) ∧
    getch ['x'] = some (['x'], []) :=
  getch_decode_spec [] 'x' (by decide)

/-! ### Claim C1: alias conflicts at registration time -/

/-- Claim C1 is contradicted by the code: the alias-conflict check in
`register_command` consults `self._command_maps`, which `__init__` sets to
the empty list and only `CLI.run` ever replaces by a real alias dict.  On a
freshly constructed CLI two commands sharing the alias `"x"` both register
fine (ids 3 and 4), and even a command reusing the reserved built-in alias
`"help"` registers fine (id 5) — no `AliasConflict` is ever raised. -/
theorem register_ignores_alias_conflict :
    (do
      let st0 ← initCLI 1000
      let p1 ← register_command st0 { oid := 10, function := 10, aliases := ["x"] }
      let p2 ← register_command p1.1 { oid := 11, function := 11, aliases := ["x"] }
      let p3 ← register_command p2.1 { oid := 12, function := 12, aliases := ["help"] }
      Except.ok (p1.2, p2.2, p3.2) : Except PyExc (Nat × Nat × Nat)) =
      Except.ok (3, 4, 5) := by rfl

/-! ### Claim C10: `unregister_command` with out-of-range and negative ids -/

/-- Claim C10 counterexample: the registry right after construction holds
the 3 built-ins (non-empty), yet `unregister_command (-4)` FAILS — the
Python list assignment `self.commands[-4] = None` raises its own
`IndexError` — contradicting "any negative integer id does not fail". -/
theorem unregister_neg_counterexample :
    (initCLI 1000).map (fun st => st.commands.length) = Except.ok 3 ∧
    (initCLI 1000).bind (fun st => unregister_command st (-4)) =
      Except.error (PyExc.indexError list_assign_msg) :=
  ⟨rfl, rfl⟩

/-- Claim C10 (amended): `unregister_command id` raises the registry's own
out-of-range error exactly when `id ≥ len(commands)`; a negative `id` with
`-len(commands) ≤ id ≤ -1` succeeds and tombstones the entry counted from
the end of the command list (`id = -1` is the most recently registered);
but a negative `id < -len(commands)` fails with CPython's list-assignment
`IndexError` rather than the registry's error. -/
theorem unregister_spec (st : CLIState) (id : Int) :
    (unregister_command st id = Except.error (PyExc.indexError id_out_of_range_msg) ↔
      (st.commands.length : Int) ≤ id) ∧
    (-(st.commands.length : Int) ≤ id → id < 0 →
      unregister_command st id =
        Except.ok { st with commands := st.commands.set (id + st.commands.length).toNat none }) ∧
    (id < -(st.commands.length : Int) →
      unregister_command st id = Except.error (PyExc.indexError list_assign_msg)) := by
  refine ⟨⟨?_, ?_⟩, ?_, ?_⟩
  · intro h
    by_cases hlt : id < (st.commands.length : Int)
    · exfalso
      unfold unregister_command at h
      rw [if_pos hlt] at h
      unfold pySetItem at h
      by_cases hj : 0 ≤ pyItemIdx st.commands.length id ∧
          pyItemIdx st.commands.length id < (st.commands.length : Int)
      · rw [if_pos hj] at h
        simp at h
      · rw [if_neg hj] at h
        simp only [] at h
        have hmsg : list_assign_msg = id_out_of_range_msg := by
          injection h with h2
          injection h2
        exact absurd hmsg (by decide)
    · omega
  · intro h
    unfold unregister_command
    rw [if_neg (by omega)]
  · intro h1 h2
    have hlt : id < (st.commands.length : Int) := by omega
    unfold unregister_command
    rw [if_pos hlt]
    unfold pySetItem
    have hidx : pyItemIdx st.commands.length id = id + st.commands.length := by
      unfold pyItemIdx
      rw [if_pos h2]
    rw [hidx, if_pos (by constructor <;> omega)]
  · intro h
    have hlt : id < (st.commands.length : Int) := by omega
    unfold unregister_command
    rw [if_pos hlt]
    unfold pySetItem
    have hidx : pyItemIdx st.commands.length id = id + st.commands.length := by
      unfold pyItemIdx
      rw [if_pos (by omega)]
    rw [hidx, if_neg (by omega)]

/-- Witness for `unregister_spec`: `id = -1` on the 3-command registry
tombstones the most recently registered command. -/
theorem unregister_spec_witness :
    -((threeCmds.commands.length : Int)) ≤ -1 ∧
    unregister_command threeCmds (-1) =
      Except.ok { threeCmds with
        commands := threeCmds.commands.set ((-1 : Int) + threeCmds.commands.length).toNat none } :=
  ⟨by decide, (unregister_spec threeCmds (-1)).2.1 (by decide) (by decide)⟩

/-! ### Claim C8: the `help` built-in -/

theorem fmt_all_clean (cmds : List (Option Command))
    (h : (none : Option Command) ∉ cmds) :
    fmt_all cmds = (cmds.filterMap (fun oc => oc.map print_fmt), false) := by
  induction cmds with
  | nil => rfl
  | cons oc rest ih =>
    cases oc with
    | none => exact absurd (List.mem_cons_self _ _) h
    | some c =>
      have hrest : (none : Option Command) ∉ rest :=
        fun hr => h (List.mem_cons_of_mem _ hr)
      simp [fmt_all, ih hrest, List.filterMap_cons]

/-- Claim C8 counterexample: starting from the freshly constructed CLI and
unregistering command id 1 (the built-in quit), `help` with no argument
does not skip the tombstone — the `for cmd in inter.commands` loop hits the
`None` entry, dies with an `AttributeError`, and never returns status 0. -/
theorem help_tombstone_counterexample :
    ((initCLI 1000).bind (fun st => unregister_command st 1)).map
        (fun st => (default_cmd_help st ["help"]).status) =
      Except.ok (Except.error PyExc.attributeError) := by rfl

/-- Claim C8 (amended): `help` with no argument prints exactly one
formatted line (`aliases | description | canonical-name usage`) per command
and returns status 0 PROVIDED no registry entry is tombstoned; when an
entry is tombstoned the listing raises an `AttributeError` on it instead of
skipping it (reported by the run loop as a command error).  `help` with an
alias that does not resolve reports CommandNotFound on stderr and returns
the nonzero status 1. -/
theorem help_spec (st : CLIState) (a : String)
    (hclean : (none : Option Command) ∉ st.commands)
    (hmiss : dictGet? st.commandMaps a = none) :
    default_cmd_help st ["help"] =
      { out := st.commands.filterMap (fun oc => oc.map print_fmt), err := [],
        status := Except.ok 0 } ∧
    default_cmd_help st ["help", a] =
      { out := [], err := [command_not_found_msg a], status := Except.ok 1 } := by
  constructor
  · unfold default_cmd_help
    rw [if_pos (by simp), fmt_all_clean st.commands hclean]
    simp
  · unfold default_cmd_help
    rw [if_neg (by simp)]
    have hg : ((["help", a] : List String).getD 1 "") = a := rfl
    rw [hg]
    unfold get_command
    rw [hmiss]

/-- Witness for `help_spec` on the clean one-command registry, with the
unknown alias `"zzz"`. -/
theorem help_spec_witness :
    default_cmd_help helpSt ["help"] =
      { out := helpSt.commands.filterMap (fun oc => oc.map print_fmt), err := [],
        status := Except.ok 0 } ∧
    default_cmd_help helpSt ["help", "zzz"] =
      { out := [], err := [command_not_found_msg "zzz"], status := Except.ok 1 } :=
  help_spec helpSt "zzz" (by decide) (by decide)

/-! ### Claim C9: the `history` built-in -/

theorem pySlice_window {α : Type} (l : List α) (count : Int) (hc : 1 ≤ count) :
    pySlice l (-count - 1) (-1) =
      l.dropLast.drop (l.dropLast.length - count.toNat) := by
  unfold pySlice pySliceIdx
  rw [if_pos (by omega), if_pos (by omega)]
  have h1 : ((-1 : Int) + l.length).toNat = l.length - 1 := by omega
  have h2 : (-count - 1 + (l.length : Int)).toNat = l.length - 1 - count.toNat := by
    omega
  rw [h1, h2, ← List.dropLast_eq_take, List.length_dropLast]

/-- Claim C9 counterexample: with `inter.history = ["a", "history"]` — the
state the handler actually sees, since the run loop writes the current line
into the last history slot before dispatching it — `history 1` prints
`"  1  a"`: the slice `[-count-1:-1]` excludes the most recent committed
entry (the invocation's own line `"history"`), so the shown window does NOT
end with the most recent committed entry. -/
theorem history_window_counterexample :
    default_cmd_history (mkState ["a", "history"]) ["history", "1"] =
      { out := ["  1  a"], err := [], status := Except.ok 0 } ∧
    ("  1  a" : String) ≠ "  2  history" := by
  exact ⟨by rfl, by decide⟩

/-- Claim C9 (amended): `history` with a parsed count `c ≥ 1` (and with the
default 15 when no argument is given) prints, as one `'\n'`-joined string,
up to `c` formatted entries `f"{k+1:3d}  {v}"` taken from the committed
history EXCLUDING its final entry — the invocation's own just-committed
line — namely the last `c` of `history.dropLast`, oldest of the window
first, with 1-based absolute indices, and returns 0.  A count below 1
reports the negative-count error and returns 1 without printing entries; an
unparsable count reports the invalid-count error and returns 1 without
printing entries. -/
theorem history_cmd_spec (st : CLIState) (s : String) :
    default_cmd_history st ["history"] =
      { out := [String.intercalate "\n"
          ((history_lines st.history).dropLast.drop
            ((history_lines st.history).dropLast.length - 15))],
        err := [], status := Except.ok 0 } ∧
    (∀ count : Int, pyParseInt? s = some count → 1 ≤ count →
      default_cmd_history st ["history", s] =
        { out := [String.intercalate "\n"
            ((history_lines st.history).dropLast.drop
              ((history_lines st.history).dropLast.length - count.toNat))],
          err := [], status := Except.ok 0 }) ∧
    (∀ count : Int, pyParseInt? s = some count → count < 1 →
      default_cmd_history st ["history", s] =
        { out := [], err := [history_negative_count_msg], status := Except.ok 1 }) ∧
    (pyParseInt? s = none →
      default_cmd_history st ["history", s] =
        { out := [], err := [history_invalid_count_msg], status := Except.ok 1 }) := by
  have hg : ((["history", s] : List String).getD 1 "") = s := rfl
  refine ⟨?_, fun count hp hc => ?_, fun count hp hc => ?_, fun hp => ?_⟩
  · unfold default_cmd_history
    rw [if_neg (by simp)]
    unfold history_joined
    rw [pySlice_window _ 15 (by decide)]
    rfl
  · unfold default_cmd_history
    rw [if_pos (by simp), hg, hp]
    simp only [history_count_branch]
    rw [if_neg (by omega)]
    unfold history_joined
    rw [pySlice_window _ count hc]
  · unfold default_cmd_history
    rw [if_pos (by simp), hg, hp]
    simp only [history_count_branch]
    rw [if_pos hc]
  · unfold default_cmd_history
    rw [if_pos (by simp), hg, hp]
    rfl

/-- Witness for `history_cmd_spec` at history `["a", "b", "history"]` and
count string `"2"`. -/
theorem history_cmd_spec_witness :
    default_cmd_history (mkState ["a", "b", "history"]) ["history", "2"] =
      { out := [String.intercalate "\n"
          ((history_lines (mkState ["a", "b", "history"]).history).dropLast.drop
            ((history_lines (mkState ["a", "b", "history"]).history).dropLast.length -
              (2 : Int).toNat))],
        err := [], status := Except.ok 0 } :=
  (history_cmd_spec (mkState ["a", "b", "history"]) "2").2.1 2 (by decide) (by decide)

/-! ### Claim C3: the line editor is the fold of the spec §4.2 rules -/

theorem input_edit_matches_spec (out : List Char) (index : Nat) (ev : KeyEvent)
    (hidx : index ≤ out.length) (hev : eventPlain ev = true) :
    input_edit out index (eventChs ev) = spec_editor_step (out, index) ev := by
  cases ev with
  | char c =>
    simp only [eventPlain, plainChar, Bool.and_eq_true, decide_eq_true_eq] at hev
    obtain ⟨⟨⟨⟨⟨h3, h4⟩, hn⟩, hr⟩, h7⟩, h8⟩ := hev
    unfold input_edit eventChs spec_editor_step
    rw [if_neg (by simp), if_neg (by simp), if_neg (by simp [h7, h8]),
      if_neg (by simp)]
  | arrowLeft =>
    unfold input_edit eventChs
    rw [if_neg (by decide), if_pos rfl]
    simp only [spec_editor_step]
    by_cases h : 0 < index
    · rw [if_pos h]
    · rw [if_neg h]
      have h0 : index = 0 := by omega
      subst h0
      rfl
  | arrowRight =>
    unfold input_edit eventChs
    rw [if_pos rfl]
    simp only [spec_editor_step]
    by_cases h : index < out.length
    · rw [if_pos h]
      have hm : min out.length (index + 1) = index + 1 := by omega
      rw [hm]
    · rw [if_neg h]
      have hm : min out.length (index + 1) = index := by omega
      rw [hm]
  | backspace =>
    unfold input_edit eventChs spec_editor_step
    rw [if_neg (by decide), if_neg (by decide), if_pos (Or.inl rfl)]
  | delete =>
    unfold input_edit eventChs spec_editor_step
    rw [if_neg (by decide), if_neg (by decide), if_neg (by decide), if_pos rfl]

theorem spec_editor_step_le (out : List Char) (index : Nat) (ev : KeyEvent)
    (h : index ≤ out.length) :
    (spec_editor_step (out, index) ev).2 ≤ (spec_editor_step (out, index) ev).1.length := by
  cases ev with
  | char c =>
    simp [spec_editor_step, List.length_append, List.length_take, List.length_drop]
    omega
  | arrowLeft =>
    simp [spec_editor_step]
    omega
  | arrowRight =>
    simp [spec_editor_step]
  | backspace =>
    simp only [spec_editor_step]
    split
    · simp only [List.length_append, List.length_take, List.length_drop]
      omega
    · exact h
  | delete =>
    simp only [spec_editor_step]
    split
    · simp only [List.length_append, List.length_take, List.length_drop]
      omega
    · exact h

theorem eventChs_not_special (ev : KeyEvent) (hev : eventPlain ev = true) :
    eventChs ev ∉ default_stop_chars ∧ eventChs ev ∉ default_invisible_chars := by
  cases ev with
  | char c =>
    simp only [eventPlain, plainChar, Bool.and_eq_true, decide_eq_true_eq] at hev
    obtain ⟨⟨⟨⟨⟨h3, h4⟩, hn⟩, hr⟩, h7⟩, h8⟩ := hev
    constructor
    · simp [eventChs, default_stop_chars, h3, h4, hn, hr]
    · simp [eventChs, default_invisible_chars]
  | arrowLeft => exact ⟨by decide, by decide⟩
  | arrowRight => exact ⟨by decide, by decide⟩
  | backspace => exact ⟨by decide, by decide⟩
  | delete => exact ⟨by decide, by decide⟩

theorem input_loop_fold (events : List KeyEvent) (out : List Char) (index : Nat)
    (hidx : index ≤ out.length) (hev : ∀ ev ∈ events, eventPlain ev = true) :
    input_loop default_stop_chars default_invisible_chars out index (events.map eventChs) =
      ((events.foldl spec_editor_step (out, index)).1,
       (events.foldl spec_editor_step (out, index)).2, none) := by
  induction events generalizing out index with
  | nil => rfl
  | cons ev rest ih =>
    have hev0 : eventPlain ev = true := hev ev (List.mem_cons_self _ _)
    have hrest : ∀ e ∈ rest, eventPlain e = true :=
      fun e he => hev e (List.mem_cons_of_mem _ he)
    obtain ⟨hs, hi⟩ := eventChs_not_special ev hev0
    have hedit := input_edit_matches_spec out index ev hidx hev0
    have hinv := spec_editor_step_le out index ev hidx
    simp only [List.map_cons, List.foldl_cons]
    unfold input_loop
    rw [if_neg hs, if_neg hi, hedit]
    have hih := ih (spec_editor_step (out, index) ev).1
      (spec_editor_step (out, index) ev).2 hinv hrest
    simpa using hih

/-- Claim C3: for every sequence of non-terminating key events whose
`Char` payloads are ordinary characters (not the control bytes that the
shell assigns to stop or edit keys — the only characters for which a
distinct `Char` event does not even exist, since the decoder emits the
same string for them), the final `(text, cursor)` state of `CLI.input`equals
the left fold of the pure per-event rules of spec §4.2 over the seed text
with the cursor at its end: `Char(c)` inserts at the cursor and advances,
ArrowLeft/ArrowRight clamp the cursor to `[0, len(text)]`, Backspace
deletes before the cursor only when `cursor > 0`, Delete removes at the
cursor only when `cursor < len(text)` leaving the cursor in place. -/
theorem input_matches_editor_fold (seed : List Char) (events : List KeyEvent)
    (hev : ∀ ev ∈ events, eventPlain ev = true) :
    input_loop default_stop_chars default_invisible_chars seed seed.length
        (events.map eventChs) =
      ((events.foldl spec_editor_step (seed, seed.length)).1,
       (events.foldl spec_editor_step (seed, seed.length)).2, none) :=
  input_loop_fold events seed seed.length (Nat.le_refl _) hev

/-- Witness for `input_matches_editor_fold` on the seed `"ab"` with the
events `Char('c')`, ArrowLeft, Backspace, Delete: the editor ends at text
`"a"` with cursor 1, matching the hand-computed fold. -/
theorem input_matches_editor_fold_witness :
    input_loop default_stop_chars default_invisible_chars ['a', 'b'] 2
        ([KeyEvent.char 'c', KeyEvent.arrowLeft, KeyEvent.backspace,
          KeyEvent.delete].map eventChs) =
      (['a'], 1, none) :=
  (input_matches_editor_fold ['a', 'b']
    [KeyEvent.char 'c', KeyEvent.arrowLeft, KeyEvent.backspace, KeyEvent.delete]
    (by decide)).trans (by decide)

end Cli
